import Mathlib

/-!
Shallow embedding of the time-locked savings vault contract
(`src/lib.rs`, Arbitrum Stylus / Rust).  Machine integers (`U256`) are
modelled as `Nat` reduced modulo `2^256` at every arithmetic step: in the
release builds that get deployed, the `alloy_primitives::U256` operators
`+`, `-`, `*` wrap modulo `2^256` (they do not panic or trap).  Division
is Nat floor division, exactly as `U256` division.  Addresses are `Nat`
(the zero address is `0`).  A public Stylus method that returns `Err`
aborts the transaction and the host reverts every storage write made
during the call, so the exposed semantics of each operation either
commits the fully mutated state or leaves the pre-state untouched; the
`*_raw` functions below are the literal transcriptions of the Rust
bodies (whose early `return Err` can happen after storage writes), and
the exposed operations wrap them with the host's revert.
-/

/-- 2^256, the modulus of the EVM word type `U256`. -/
def twoPow256 : Nat := 2 ^ 256

/-- Wrapping `U256` addition (release-build semantics of `+`). -/
def uadd (x y : Nat) : Nat := (x + y) % twoPow256

/-- Wrapping `U256` multiplication (release-build semantics of `*`). -/
def umul (x y : Nat) : Nat := (x * y) % twoPow256

/-- Wrapping `U256` subtraction (release-build semantics of `-`). -/
def usub (x y : Nat) : Nat :=
  (x % twoPow256 + (twoPow256 - y % twoPow256)) % twoPow256

/-- Per-account deposit record (`sol_storage!` struct `Deposit`). -/
structure Deposit where
  amount : Nat
  lock_time : Nat
  unlock_time : Nat
  last_reward_claim : Nat
  accumulated_rewards : Nat
  deriving DecidableEq, Repr

/-- The all-zero record: the value a never-written mapping slot reads as,
and the state `withdraw`/`emergency_withdraw` reset a record to. -/
def emptyDeposit : Deposit := ⟨0, 0, 0, 0, 0⟩

/-- Contract storage (`sol_storage!` struct `TimeLockedVault`). -/
structure TimeLockedVault where
  deposits : Nat → Deposit
  total_locked : Nat
  owner : Nat
  emergency_mode : Bool
  base_reward_rate : Nat
  time_bonus_multiplier : Nat

/-- Storage as deployed: every slot zero. -/
def initialState : TimeLockedVault :=
  { deposits := fun _ => emptyDeposit
    total_locked := 0
    owner := 0
    emergency_mode := false
    base_reward_rate := 0
    time_bonus_multiplier := 0 }

/-- Write one mapping slot (`self.deposits.setter(a)` followed by field
writes amounts to replacing the record stored at `a`). -/
def setAcct (m : Nat → Deposit) (a : Nat) (d : Deposit) : Nat → Deposit :=
  fun x => if x = a then d else m x

/-- The error enum `TimeLockedVaultError`, each variant carrying the same
fields as the Solidity error it wraps. -/
inductive TimeLockedVaultError where
  | Unauthorized (sender : Nat)
  | EmergencyModeActive (sender : Nat)
  | EmergencyModeNotActive (sender : Nat)
  | TransferFailed (sender : Nat)
  | InvalidLockPeriod (lock_period : Nat)
  | InsufficientBalance (sender balance needed : Nat)
  | NoDeposit (sender : Nat)
  | FundsStillLocked (sender unlock_time : Nat)
  deriving DecidableEq, Repr

/-- Host-supplied context of one invocation: `msg_sender`, `msg_value`,
`block_timestamp`, and whether the single `transfer_eth` the operation
may attempt would succeed. -/
structure Ctx where
  sender : Nat
  value : Nat
  now : Nat
  transfer_ok : Bool

/-- Result of a successful invocation: the committed storage plus the
value transfer performed (recipient, amount), if any. -/
structure Outcome where
  state : TimeLockedVault
  transfer : Option (Nat × Nat)

/-- `calculate_pending_rewards` (src/lib.rs lines 113-136), verbatim:
returns `Ok 0` on a zero-amount record, otherwise
`Ok ((amount * rate * elapsed / 10^18) * (10000 + mult * lockDur / 86400) / 10000)`
with every `U256` operation wrapping. -/
def calculate_pending_rewards (s : TimeLockedVault) (user : Nat) (now : Nat) :
    Except TimeLockedVaultError Nat :=
  let d := s.deposits user
  if d.amount = 0 then .ok 0
  else
    let time_elapsed := usub now d.last_reward_claim
    let base_reward := umul (umul d.amount s.base_reward_rate) time_elapsed / 10 ^ 18
    let lock_duration := usub d.unlock_time d.lock_time
    let bonus_multiplier := uadd 10000 (umul s.time_bonus_multiplier lock_duration / 86400)
    let total_reward := umul base_reward bonus_multiplier / 10000
    .ok total_reward

/-- The value `calculate_pending_rewards` returns (it never errors). -/
def pending_val (s : TimeLockedVault) (user : Nat) (now : Nat) : Nat :=
  match calculate_pending_rewards s user now with
  | .ok v => v
  | .error _ => 0

/-- `initialize` (lines 94-110): one-time bootstrap; fails with
`Unauthorized` when an owner is already set. -/
def init_vault (ctx : Ctx) (base_reward_rate time_bonus_multiplier : Nat)
    (s : TimeLockedVault) : Except TimeLockedVaultError Outcome :=
  if s.owner ≠ 0 then .error (.Unauthorized ctx.sender)
  else .ok ⟨{ s with
                owner := ctx.sender
                base_reward_rate := base_reward_rate
                time_bonus_multiplier := time_bonus_multiplier
                emergency_mode := false }, none⟩

/-- `deposit` (lines 139-202), verbatim: emergency check, zero-value
check, lock-period bounds, settle pending interest into
`accumulated_rewards` only when the prior `amount` was positive, then
overwrite the record and add the transferred value to `total_locked`. -/
def deposit (ctx : Ctx) (lock_period : Nat) (s : TimeLockedVault) :
    Except TimeLockedVaultError Outcome :=
  if s.emergency_mode then .error (.EmergencyModeActive ctx.sender)
  else
    let sender := ctx.sender
    let amount := ctx.value
    if amount = 0 then .error (.InsufficientBalance sender 0 amount)
    else if lock_period < 86400 ∨ lock_period > 31536000 then
      .error (.InvalidLockPeriod lock_period)
    else
      match calculate_pending_rewards s sender ctx.now with
      | .error e => .error e
      | .ok pending_rewards =>
        let d := s.deposits sender
        let d1 := if d.amount > 0 then
            { d with accumulated_rewards := uadd d.accumulated_rewards pending_rewards }
          else d
        let unlock_time := uadd ctx.now lock_period
        let d2 := { d1 with
                      amount := amount
                      lock_time := ctx.now
                      unlock_time := unlock_time
                      last_reward_claim := ctx.now }
        .ok ⟨{ s with
                 deposits := setAcct s.deposits sender d2
                 total_locked := uadd s.total_locked amount }, none⟩

/-- `withdraw` (lines 204-260), literal transcription: the early
`return Err` branches carry the storage as it stood at the return (the
`TransferFailed` branch returns a state whose record is already cleared
and whose `total_locked` is already decremented — the host then reverts
it, see `withdraw`). -/
def withdraw_raw (ctx : Ctx) (s : TimeLockedVault) :
    (TimeLockedVaultError × TimeLockedVault) ⊕ Outcome :=
  let sender := ctx.sender
  let d := s.deposits sender
  let amount := d.amount
  if amount = 0 then .inl (.NoDeposit sender, s)
  else if ctx.now < d.unlock_time then
    .inl (.FundsStillLocked sender d.unlock_time, s)
  else
    match calculate_pending_rewards s sender ctx.now with
    | .error e => .inl (e, s)
    | .ok pending_rewards =>
      let total_rewards := uadd pending_rewards d.accumulated_rewards
      let s1 := { s with deposits := setAcct s.deposits sender emptyDeposit }
      let s2 := { s1 with total_locked := usub s1.total_locked amount }
      let total_amount_to_be_paid := uadd amount total_rewards
      if ctx.transfer_ok then .inr ⟨s2, some (sender, total_amount_to_be_paid)⟩
      else .inl (.TransferFailed sender, s2)

/-- Exposed `withdraw`: an `Err` return makes the host revert all storage
writes of the call, so only the pre-state or the fully mutated state is
observable. -/
def withdraw (ctx : Ctx) (s : TimeLockedVault) :
    Except TimeLockedVaultError Outcome :=
  match withdraw_raw ctx s with
  | .inl (e, _) => .error e
  | .inr o => .ok o

/-- `emergency_withdraw` (lines 263-315), literal transcription. -/
def emergency_withdraw_raw (ctx : Ctx) (s : TimeLockedVault) :
    (TimeLockedVaultError × TimeLockedVault) ⊕ Outcome :=
  if ¬ s.emergency_mode then .inl (.EmergencyModeNotActive ctx.sender, s)
  else
    let sender := ctx.sender
    let d := s.deposits sender
    let amount := d.amount
    if amount = 0 then .inl (.NoDeposit sender, s)
    else
      let penalty := umul amount 15 / 100
      let total_amount_to_be_paid := usub amount penalty
      let s1 := { s with deposits := setAcct s.deposits sender emptyDeposit }
      let s2 := { s1 with total_locked := usub s1.total_locked amount }
      if ctx.transfer_ok then .inr ⟨s2, some (sender, total_amount_to_be_paid)⟩
      else .inl (.TransferFailed sender, s2)

/-- Exposed `emergency_withdraw` (host reverts storage on `Err`). -/
def emergency_withdraw (ctx : Ctx) (s : TimeLockedVault) :
    Except TimeLockedVaultError Outcome :=
  match emergency_withdraw_raw ctx s with
  | .inl (e, _) => .error e
  | .inr o => .ok o

/-- `activate_emergency_mode` (lines 317-333): note the source checks the
emergency flag before the owner. -/
def activate_emergency_mode (ctx : Ctx) (s : TimeLockedVault) :
    Except TimeLockedVaultError Outcome :=
  if s.emergency_mode then .error (.EmergencyModeActive ctx.sender)
  else if s.owner ≠ ctx.sender then .error (.Unauthorized ctx.sender)
  else .ok ⟨{ s with emergency_mode := true }, none⟩

/-- `claim_rewards` (lines 335-371), literal transcription. -/
def claim_rewards_raw (ctx : Ctx) (s : TimeLockedVault) :
    (TimeLockedVaultError × TimeLockedVault) ⊕ Outcome :=
  let sender := ctx.sender
  let d := s.deposits sender
  if d.amount = 0 then .inl (.NoDeposit sender, s)
  else
    match calculate_pending_rewards s sender ctx.now with
    | .error e => .inl (e, s)
    | .ok pending =>
      let total_rewards := uadd d.accumulated_rewards pending
      if total_rewards = 0 then .inr ⟨s, none⟩
      else
        let d1 := { d with last_reward_claim := ctx.now, accumulated_rewards := 0 }
        let s1 := { s with deposits := setAcct s.deposits sender d1 }
        if ctx.transfer_ok then .inr ⟨s1, some (sender, total_rewards)⟩
        else .inl (.TransferFailed sender, s1)

/-- Exposed `claim_rewards` (host reverts storage on `Err`). -/
def claim_rewards (ctx : Ctx) (s : TimeLockedVault) :
    Except TimeLockedVaultError Outcome :=
  match claim_rewards_raw ctx s with
  | .inl (e, _) => .error e
  | .inr o => .ok o

/-- `update_reward_rate` (lines 373-382). -/
def update_reward_rate (ctx : Ctx) (new_rate : Nat) (s : TimeLockedVault) :
    Except TimeLockedVaultError Outcome :=
  if ctx.sender ≠ s.owner then .error (.Unauthorized ctx.sender)
  else .ok ⟨{ s with base_reward_rate := new_rate }, none⟩

/-- `get_deposit_info` (lines 385-395): `(amount, unlock_time,
accumulated_rewards + pending, lock_time)`, with `unwrap_or(0)` on the
reward computation. -/
def get_deposit_info (s : TimeLockedVault) (user : Nat) (now : Nat) :
    Nat × Nat × Nat × Nat :=
  let d := s.deposits user
  let pending := match calculate_pending_rewards s user now with
    | .ok v => v
    | .error _ => 0
  (d.amount, d.unlock_time, uadd d.accumulated_rewards pending, d.lock_time)

/-- `get_total_locked` (lines 397-399). -/
def get_total_locked (s : TimeLockedVault) : Nat := s.total_locked

/-- One public call, for talking about call sequences. -/
inductive VaultAction where
  | initVault (base_reward_rate time_bonus_multiplier : Nat)
  | deposit (lock_period : Nat)
  | withdraw
  | emergencyWithdraw
  | claimRewards
  | activateEmergency
  | updateRate (new_rate : Nat)

/-- Dispatch one call to the corresponding public method. -/
def stepResult (a : VaultAction) (ctx : Ctx) (s : TimeLockedVault) :
    Except TimeLockedVaultError Outcome :=
  match a with
  | .initVault b m => init_vault ctx b m s
  | .deposit p => deposit ctx p s
  | .withdraw => withdraw ctx s
  | .emergencyWithdraw => emergency_withdraw ctx s
  | .claimRewards => claim_rewards ctx s
  | .activateEmergency => activate_emergency_mode ctx s
  | .updateRate r => update_reward_rate ctx r s

/-- Storage after one public call: the committed state on success, the
untouched pre-state on any error (the host reverts). -/
def applyAction (a : VaultAction) (ctx : Ctx) (s : TimeLockedVault) : TimeLockedVault :=
  match stepResult a ctx s with
  | .ok o => o.state
  | .error _ => s

/-- The transfer a call performed, if it succeeded and transferred. -/
def transferred (r : Except TimeLockedVaultError Outcome) : Option (Nat × Nat) :=
  match r with
  | .ok o => o.transfer
  | .error _ => none

/-- States reachable from deployment by public calls.  The host never
reports the zero address as `msg_sender` (no key signs for it), which the
step hypothesis records. -/
inductive Reachable : TimeLockedVault → Prop where
  | init : Reachable initialState
  | step {s : TimeLockedVault} (a : VaultAction) (ctx : Ctx) :
      Reachable s → ctx.sender ≠ 0 → Reachable (applyAction a ctx s)

/-! ## Helper lemmas -/

theorem twoPow256_pos : 0 < twoPow256 := by decide

/-- `calculate_pending_rewards` never takes its error path. -/
theorem calc_ok (s : TimeLockedVault) (user now : Nat) :
    calculate_pending_rewards s user now = .ok (pending_val s user now) := by
  by_cases h : (s.deposits user).amount = 0 <;>
    simp [calculate_pending_rewards, pending_val, h]

theorem uadd_exact {x y : Nat} (h : x + y < twoPow256) : uadd x y = x + y :=
  Nat.mod_eq_of_lt h

theorem umul_exact {x y : Nat} (h : x * y < twoPow256) : umul x y = x * y :=
  Nat.mod_eq_of_lt h

theorem usub_exact {x y : Nat} (hyx : y ≤ x) (hx : x < twoPow256) :
    usub x y = x - y := by
  have hy : y < twoPow256 := lt_of_le_of_lt hyx hx
  unfold usub
  rw [Nat.mod_eq_of_lt hx, Nat.mod_eq_of_lt hy]
  have h1 : x + (twoPow256 - y) = twoPow256 + (x - y) := by omega
  rw [h1, Nat.add_mod_left,
    Nat.mod_eq_of_lt (by omega : x - y < twoPow256)]

theorem usub_self (x : Nat) : usub x x = 0 := by
  unfold usub
  rw [Nat.add_sub_cancel' (le_of_lt (Nat.mod_lt x twoPow256_pos)), Nat.mod_self]

theorem umul_zero (x : Nat) : umul x 0 = 0 := by
  unfold umul
  simp

theorem setAcct_same (m : Nat → Deposit) (a : Nat) (d : Deposit) :
    setAcct m a d a = d := by
  unfold setAcct
  simp

theorem setAcct_other (m : Nat → Deposit) (a : Nat) (d : Deposit) {x : Nat}
    (h : x ≠ a) : setAcct m a d x = m x := by
  unfold setAcct
  simp [h]

example : pending_val initialState 1 5 = 0 := by decide

example :
    transferred (emergency_withdraw ⟨1, 0, 0, true⟩
      { initialState with
          deposits := setAcct initialState.deposits 1 ⟨100, 0, 86400, 0, 7⟩
          total_locked := 100
          emergency_mode := true }) = some (1, 85) := by decide

/-! ## The spec's exact reward formula -/

/-- The reward formula exactly as the spec states it, in unbounded
integer arithmetic: `baseReward = amount * baseRewardRate * timeElapsed / 10^18`,
`bonusMultiplier = 10000 + timeBonusMultiplier * lockDuration / 86400`,
`unsettledInterest = baseReward * bonusMultiplier / 10000`, and zero when
`amount = 0`. -/
def spec_pending_reward (d : Deposit)
    (base_reward_rate time_bonus_multiplier now : Nat) : Nat :=
  if d.amount = 0 then 0
  else
    d.amount * base_reward_rate * (now - d.last_reward_claim) / 10 ^ 18 *
      (10000 + time_bonus_multiplier * (d.unlock_time - d.lock_time) / 86400) /
      10000

theorem umul_zero_left (x : Nat) : umul 0 x = 0 := by
  unfold umul
  simp

/-- When no step of the reward computation overflows 2^256, the wrapped
computation agrees with the exact formula. -/
theorem wrapped_formula_exact (a r m lt ut lc now : Nat)
    (hnow : now < twoPow256) (hclaim : lc ≤ now)
    (hlock : lt ≤ ut) (hut : ut < twoPow256)
    (hbase : a * r * (now - lc) < twoPow256)
    (hbonus : m * (ut - lt) < twoPow256)
    (hfinal : a * r * (now - lc) / 10 ^ 18 *
      (10000 + m * (ut - lt) / 86400) < twoPow256) :
    umul (umul (umul a r) (usub now lc) / 10 ^ 18)
        (uadd 10000 (umul m (usub ut lt) / 86400)) / 10000 =
      a * r * (now - lc) / 10 ^ 18 * (10000 + m * (ut - lt) / 86400) / 10000 := by
  rw [usub_exact hclaim hnow, usub_exact hlock hut]
  by_cases hdt : now - lc = 0
  · rw [hdt]
    simp [umul]
  · have har : a * r < twoPow256 := by
      have h1 : a * r ≤ a * r * (now - lc) :=
        Nat.le_mul_of_pos_right _ (Nat.pos_of_ne_zero hdt)
      omega
    have hq : m * (ut - lt) / 86400 ≤ (twoPow256 - 1) / 86400 :=
      Nat.div_le_div_right (by omega)
    have hbb : 10000 + m * (ut - lt) / 86400 < twoPow256 := by
      have hc : 10000 + (twoPow256 - 1) / 86400 < twoPow256 := by decide
      omega
    rw [umul_exact har, umul_exact hbase, umul_exact hbonus, uadd_exact hbb,
      umul_exact hfinal]

/-- C4 (amended): for every deposit record with `lockStart ≤ unlockTime`,
rate parameters, and `now ≥ lastRewardClaim` below 2^256, provided no
multiplication step of the computation reaches 2^256, the pending-reward
computation returns 0 when `amount = 0` and otherwise exactly
`(amount * baseRewardRate * (now - lastRewardClaim) / 10^18) *
 (10000 + timeBonusMultiplier * (unlockTime - lockStart) / 86400) / 10000`,
with floor division at exactly those points; it mutates nothing (it is a
pure function of the state). -/
theorem c4_pending_rewards_exact (s : TimeLockedVault) (user now : Nat)
    (hnow : now < twoPow256)
    (hclaim : (s.deposits user).last_reward_claim ≤ now)
    (hlock : (s.deposits user).lock_time ≤ (s.deposits user).unlock_time)
    (hut : (s.deposits user).unlock_time < twoPow256)
    (hbase : (s.deposits user).amount * s.base_reward_rate *
      (now - (s.deposits user).last_reward_claim) < twoPow256)
    (hbonus : s.time_bonus_multiplier *
      ((s.deposits user).unlock_time - (s.deposits user).lock_time) < twoPow256)
    (hfinal : (s.deposits user).amount * s.base_reward_rate *
        (now - (s.deposits user).last_reward_claim) / 10 ^ 18 *
        (10000 + s.time_bonus_multiplier *
          ((s.deposits user).unlock_time - (s.deposits user).lock_time) / 86400) <
      twoPow256) :
    calculate_pending_rewards s user now =
      .ok (spec_pending_reward (s.deposits user) s.base_reward_rate
        s.time_bonus_multiplier now) := by
  unfold calculate_pending_rewards spec_pending_reward
  by_cases h0 : (s.deposits user).amount = 0
  · simp [h0]
  · simp only [h0, if_false]
    rw [wrapped_formula_exact _ _ _ _ _ _ _ hnow hclaim hlock hut hbase hbonus hfinal]

/-- A state whose single record makes `amount * rate * elapsed` overflow
2^256: `amount = 2^255`, `baseRewardRate = 2`. -/
def c4State : TimeLockedVault :=
  { initialState with
      deposits := setAcct initialState.deposits 1 ⟨2 ^ 255, 0, 86400, 0, 0⟩
      base_reward_rate := 2 }

/-- C4 counterexample: with `amount = 2^255`, `rate = 2` and one elapsed
second, the code's 256-bit product wraps to zero, so the computation
returns 0 while the claimed exact formula is positive. -/
theorem c4_counterexample :
    calculate_pending_rewards c4State 1 1 = .ok 0 ∧
    spec_pending_reward (c4State.deposits 1) c4State.base_reward_rate
      c4State.time_bonus_multiplier 1 ≠ 0 :=
  ⟨rfl, by decide⟩

/-- A small benign state: 10^18 locked at rate 1, zero bonus multiplier. -/
def c4WitState : TimeLockedVault :=
  { initialState with
      deposits := setAcct initialState.deposits 1 ⟨10 ^ 18, 0, 86400, 0, 0⟩
      base_reward_rate := 1 }

/-- Witness for `c4_pending_rewards_exact` at a concrete input. -/
theorem c4_pending_rewards_exact_witness :
    calculate_pending_rewards c4WitState 1 10 =
      .ok (spec_pending_reward (c4WitState.deposits 1) c4WitState.base_reward_rate
        c4WitState.time_bonus_multiplier 10) :=
  c4_pending_rewards_exact c4WitState 1 10 (by decide) (by decide) (by decide)
    (by decide) (by decide) (by decide) (by decide)

/-! ## Frame lemmas -/

/-- `initialize` never touches the deposits mapping. -/
theorem init_vault_deposits (ctx : Ctx) (b m : Nat) (s : TimeLockedVault) :
    (applyAction (.initVault b m) ctx s).deposits = s.deposits := by
  by_cases h : s.owner = 0 <;>
    simp [applyAction, stepResult, init_vault, h]

/-- `deposit` touches no account other than the caller. -/
theorem deposit_frame (ctx : Ctx) (p : Nat) (s : TimeLockedVault) {a : Nat}
    (ha : a ≠ ctx.sender) :
    (applyAction (.deposit p) ctx s).deposits a = s.deposits a := by
  by_cases h1 : s.emergency_mode <;>
  by_cases h2 : ctx.value = 0 <;>
  by_cases h3 : p < 86400 ∨ p > 31536000 <;>
    simp [applyAction, stepResult, deposit, calc_ok, setAcct, h1, h2, h3, ha]

/-! ## C1: conservation versus re-deposit -/

/-- Deployment, then `initialize(0,0)` by account 1. -/
def c1_s1 : TimeLockedVault :=
  applyAction (.initVault 0 0) ⟨1, 0, 0, true⟩ initialState

/-- Account 1 deposits 1 wei with a 1-day lock. -/
def c1_s2 : TimeLockedVault :=
  applyAction (.deposit 86400) ⟨1, 1, 0, true⟩ c1_s1

/-- Account 1 deposits another 1 wei while the first is still active. -/
def c1_s3 : TimeLockedVault :=
  applyAction (.deposit 86400) ⟨1, 1, 0, true⟩ c1_s2

/-- C1: evaluating the code on the failing input.  After two successful
1-wei deposits by the same account from the initialized empty ledger,
`total_locked` is 2, yet the only nonempty record holds `amount = 1`
(and every other account's record is zero), so
`total_locked ≠ sum of all amount fields`: the second `deposit`
overwrites the caller's `amount` with the new value but still adds the
full new value to `total_locked`. -/
theorem c1_conservation_violated :
    c1_s3.total_locked = 2 ∧ (c1_s3.deposits 1).amount = 1 ∧
      ∀ a, a ≠ 1 → (c1_s3.deposits a).amount = 0 := by
  refine ⟨by decide, by decide, ?_⟩
  intro a ha
  have h3 : c1_s3.deposits a = c1_s2.deposits a := deposit_frame ⟨1, 1, 0, true⟩ 86400 c1_s2 ha
  have h2 : c1_s2.deposits a = c1_s1.deposits a := deposit_frame ⟨1, 1, 0, true⟩ 86400 c1_s1 ha
  have h1 : c1_s1.deposits a = initialState.deposits a :=
    congrFun (init_vault_deposits ⟨1, 0, 0, true⟩ 0 0 initialState) a
  rw [h3, h2, h1]
  rfl

/-- Witness for `c1_conservation_violated` at account 2. -/
theorem c1_conservation_violated_witness :
    c1_s3.total_locked = 2 ∧ (c1_s3.deposits 1).amount = 1 ∧
      (c1_s3.deposits 2).amount = 0 :=
  ⟨c1_conservation_violated.1, c1_conservation_violated.2.1,
    c1_conservation_violated.2.2 2 (by decide)⟩

/-! ## C2: atomicity on transfer failure -/

/-- C2: whenever `withdraw`, `emergency_withdraw`, or `claim_rewards`
returns the `TransferFailed` error, the committed ledger state — the
caller's record and `total_locked` — is exactly the pre-state.  The raw
bodies do mutate storage before attempting the transfer (see
`withdraw_raw`), but a public method that returns `Err` makes the host
revert every storage write of the call, so nothing of it commits. -/
theorem c2_transfer_failed_rollback (ctx : Ctx) (s : TimeLockedVault) :
    (withdraw ctx s = .error (.TransferFailed ctx.sender) →
      applyAction .withdraw ctx s = s) ∧
    (emergency_withdraw ctx s = .error (.TransferFailed ctx.sender) →
      applyAction .emergencyWithdraw ctx s = s) ∧
    (claim_rewards ctx s = .error (.TransferFailed ctx.sender) →
      applyAction .claimRewards ctx s = s) := by
  refine ⟨fun h => ?_, fun h => ?_, fun h => ?_⟩ <;>
    simp [applyAction, stepResult, h]

/-- A ledger holding one matured 5-wei deposit for account 1. -/
def c2State : TimeLockedVault :=
  { initialState with
      deposits := setAcct initialState.deposits 1 ⟨5, 0, 0, 0, 0⟩
      total_locked := 5 }

/-- Witness for `c2_transfer_failed_rollback`: a failing transfer on a
matured withdrawal leaves the state untouched. -/
theorem c2_transfer_failed_rollback_witness :
    applyAction .withdraw ⟨1, 0, 7, false⟩ c2State = c2State :=
  (c2_transfer_failed_rollback ⟨1, 0, 7, false⟩ c2State).1 rfl

/-! ## C3: deposit specification -/

/-- C3: `deposit(lockPeriod)` with transferred value `v` fails with
`EmergencyModeActive` when the emergency flag is set, with
`InsufficientBalance` when `v = 0`, and with `InvalidLockPeriod` when the
period lies outside `[86400, 31536000]`, in each case committing nothing;
otherwise (with the sums below 2^256) it settles the prior record's
pending interest into `accumulated_rewards` only if the prior `amount`
was positive, overwrites the record with `amount = v`,
`lock_time = now`, `unlock_time = now + lockPeriod`,
`last_reward_claim = now` (accumulated rewards carry forward), and
increases `total_locked` by `v`. -/
theorem c3_deposit_spec (ctx : Ctx) (p : Nat) (s : TimeLockedVault) :
    (s.emergency_mode = true →
      deposit ctx p s = .error (.EmergencyModeActive ctx.sender)) ∧
    (s.emergency_mode = false → ctx.value = 0 →
      deposit ctx p s = .error (.InsufficientBalance ctx.sender 0 0)) ∧
    (s.emergency_mode = false → ctx.value ≠ 0 → (p < 86400 ∨ p > 31536000) →
      deposit ctx p s = .error (.InvalidLockPeriod p)) ∧
    (∀ e, deposit ctx p s = .error e → applyAction (.deposit p) ctx s = s) ∧
    (s.emergency_mode = false → ctx.value ≠ 0 → 86400 ≤ p → p ≤ 31536000 →
      ctx.now + p < twoPow256 →
      s.total_locked + ctx.value < twoPow256 →
      (s.deposits ctx.sender).accumulated_rewards +
        pending_val s ctx.sender ctx.now < twoPow256 →
      deposit ctx p s = .ok ⟨{ s with
        deposits := setAcct s.deposits ctx.sender
          { amount := ctx.value
            lock_time := ctx.now
            unlock_time := ctx.now + p
            last_reward_claim := ctx.now
            accumulated_rewards :=
              if (s.deposits ctx.sender).amount > 0 then
                (s.deposits ctx.sender).accumulated_rewards +
                  pending_val s ctx.sender ctx.now
              else (s.deposits ctx.sender).accumulated_rewards }
        total_locked := s.total_locked + ctx.value }, none⟩) := by
  refine ⟨fun h1 => ?_, fun h1 h2 => ?_, fun h1 h2 h3 => ?_, fun e h => ?_,
    fun h1 h2 hp1 hp2 hnp htl hacc => ?_⟩
  · simp [deposit, h1]
  · simp [deposit, h1, h2]
  · simp [deposit, h1, h2, h3]
  · simp [applyAction, stepResult, h]
  · have hno : ¬ (p < 86400 ∨ p > 31536000) := by omega
    simp only [deposit, h1, h2, hno, calc_ok, Bool.false_eq_true, if_false,
      ite_false]
    simp [uadd_exact hnp, uadd_exact htl, uadd_exact hacc,
      apply_ite Deposit.accumulated_rewards]

/-- Witness for `c3_deposit_spec`: a fresh 5-wei, 1-day deposit by
account 1 on the empty ledger. -/
theorem c3_deposit_spec_witness :
    deposit ⟨1, 5, 0, true⟩ 86400 initialState = .ok ⟨{ initialState with
      deposits := setAcct initialState.deposits 1
        { amount := 5
          lock_time := 0
          unlock_time := 0 + 86400
          last_reward_claim := 0
          accumulated_rewards :=
            if (initialState.deposits 1).amount > 0 then
              (initialState.deposits 1).accumulated_rewards +
                pending_val initialState 1 0
            else (initialState.deposits 1).accumulated_rewards }
      total_locked := initialState.total_locked + 5 }, none⟩ :=
  (c3_deposit_spec ⟨1, 5, 0, true⟩ 86400 initialState).2.2.2.2 rfl
    (by decide) (by decide) (by decide) (by decide) (by decide) (by decide)

/-! ## C5: withdraw specification -/

/-- C5: `withdraw()` fails with `NoDeposit` when the caller's `amount`
is 0; it fails with `FundsStillLocked` reporting `unlock_time` exactly
when `now < unlock_time`, and never for that reason once
`now ≥ unlock_time`; on success (payout sum below 2^256 and
`amount ≤ total_locked < 2^256`) it pays the caller
`amount + accumulated_rewards + pending`, clears the record to the
all-zero state, and decreases `total_locked` by `amount`; moreover the
raw body has already cleared the record and decremented `total_locked`
when it attempts the transfer (clearing happens before the transfer). -/
theorem c5_withdraw_spec (ctx : Ctx) (s : TimeLockedVault) :
    ((s.deposits ctx.sender).amount = 0 →
      withdraw ctx s = .error (.NoDeposit ctx.sender)) ∧
    ((s.deposits ctx.sender).amount ≠ 0 →
      (withdraw ctx s =
          .error (.FundsStillLocked ctx.sender (s.deposits ctx.sender).unlock_time) ↔
        ctx.now < (s.deposits ctx.sender).unlock_time)) ∧
    ((s.deposits ctx.sender).amount ≠ 0 →
      (s.deposits ctx.sender).unlock_time ≤ ctx.now →
      ∀ u, withdraw ctx s ≠ .error (.FundsStillLocked ctx.sender u)) ∧
    ((s.deposits ctx.sender).amount ≠ 0 →
      (s.deposits ctx.sender).unlock_time ≤ ctx.now →
      ctx.transfer_ok = true →
      (s.deposits ctx.sender).amount + (s.deposits ctx.sender).accumulated_rewards +
        pending_val s ctx.sender ctx.now < twoPow256 →
      (s.deposits ctx.sender).amount ≤ s.total_locked →
      s.total_locked < twoPow256 →
      withdraw ctx s = .ok ⟨{ s with
          deposits := setAcct s.deposits ctx.sender emptyDeposit
          total_locked := s.total_locked - (s.deposits ctx.sender).amount },
        some (ctx.sender, (s.deposits ctx.sender).amount +
          (s.deposits ctx.sender).accumulated_rewards +
          pending_val s ctx.sender ctx.now)⟩) ∧
    ((s.deposits ctx.sender).amount ≠ 0 →
      (s.deposits ctx.sender).unlock_time ≤ ctx.now →
      ctx.transfer_ok = false →
      withdraw_raw ctx s = .inl (.TransferFailed ctx.sender, { s with
          deposits := setAcct s.deposits ctx.sender emptyDeposit
          total_locked := usub s.total_locked (s.deposits ctx.sender).amount })) := by
  refine ⟨fun h0 => ?_, fun h0 => ?_, fun h0 hnl u => ?_,
    fun h0 hnl htr hsum hle hW => ?_, fun h0 hnl htr => ?_⟩
  · simp [withdraw, withdraw_raw, h0]
  · constructor
    · intro h
      by_contra hge
      push_neg at hge
      simp only [withdraw, withdraw_raw, calc_ok, h0, not_lt.mpr hge, if_neg,
        if_false, ite_false] at h
      rcases htr : ctx.transfer_ok <;> simp [htr] at h
    · intro h
      simp [withdraw, withdraw_raw, h0, h]
  · simp only [withdraw, withdraw_raw, calc_ok, h0, not_lt.mpr hnl, if_neg,
      if_false, ite_false]
    rcases htr : ctx.transfer_ok <;> simp [htr]
  · simp only [withdraw, withdraw_raw, calc_ok, h0, not_lt.mpr hnl, htr, if_neg,
      if_false, ite_false, ite_true]
    have e1 : uadd (pending_val s ctx.sender ctx.now)
        (s.deposits ctx.sender).accumulated_rewards =
        pending_val s ctx.sender ctx.now +
          (s.deposits ctx.sender).accumulated_rewards :=
      uadd_exact (by omega)
    have e2 : uadd (s.deposits ctx.sender).amount
        (pending_val s ctx.sender ctx.now +
          (s.deposits ctx.sender).accumulated_rewards) =
        (s.deposits ctx.sender).amount +
          (pending_val s ctx.sender ctx.now +
            (s.deposits ctx.sender).accumulated_rewards) :=
      uadd_exact (by omega)
    have e3 : usub s.total_locked (s.deposits ctx.sender).amount =
        s.total_locked - (s.deposits ctx.sender).amount :=
      usub_exact hle hW
    simp only [e1, e2, e3]
    have e4 : (s.deposits ctx.sender).amount +
        (pending_val s ctx.sender ctx.now +
          (s.deposits ctx.sender).accumulated_rewards) =
        (s.deposits ctx.sender).amount +
          (s.deposits ctx.sender).accumulated_rewards +
          pending_val s ctx.sender ctx.now := by omega
    rw [e4]
  · simp [withdraw_raw, calc_ok, h0, not_lt.mpr hnl, htr]

/-- Witness for `c5_withdraw_spec`: account 1 withdraws its matured 5-wei
deposit. -/
theorem c5_withdraw_spec_witness :
    withdraw ⟨1, 0, 7, true⟩ c2State = .ok ⟨{ c2State with
        deposits := setAcct c2State.deposits 1 emptyDeposit
        total_locked := c2State.total_locked - (c2State.deposits 1).amount },
      some (1, (c2State.deposits 1).amount +
        (c2State.deposits 1).accumulated_rewards + pending_val c2State 1 7)⟩ :=
  (c5_withdraw_spec ⟨1, 0, 7, true⟩ c2State).2.2.2.1 (by decide) (by decide) rfl
    (by decide) (by decide) (by decide)

/-! ## C6: emergency withdraw -/

/-- C6 (amended): `emergency_withdraw()` fails with
`EmergencyModeNotActive` when the flag is off and with `NoDeposit` when
the caller's `amount` is 0; it never checks `unlock_time`; on success
(for any amount with `amount * 15 < 2^256`, and
`amount ≤ total_locked < 2^256`) the payout is exactly
`amount - amount * 15 / 100`, all accumulated and pending interest is
forfeited (the transfer carries only the penalized principal), the
record is cleared to the all-zero state, and `total_locked` decreases by
`amount`.  (For `amount ≥ ⌈2^256 / 15⌉` the unchecked multiplication
`amount * 15` wraps and the payout deviates from the claimed value, see
the counterexample.) -/
theorem c6_emergency_withdraw_spec (ctx : Ctx) (s : TimeLockedVault) :
    (s.emergency_mode = false →
      emergency_withdraw ctx s = .error (.EmergencyModeNotActive ctx.sender)) ∧
    (s.emergency_mode = true → (s.deposits ctx.sender).amount = 0 →
      emergency_withdraw ctx s = .error (.NoDeposit ctx.sender)) ∧
    (s.emergency_mode = true → (s.deposits ctx.sender).amount ≠ 0 →
      ctx.transfer_ok = true →
      (s.deposits ctx.sender).amount * 15 < twoPow256 →
      (s.deposits ctx.sender).amount ≤ s.total_locked →
      s.total_locked < twoPow256 →
      emergency_withdraw ctx s = .ok ⟨{ s with
          deposits := setAcct s.deposits ctx.sender emptyDeposit
          total_locked := s.total_locked - (s.deposits ctx.sender).amount },
        some (ctx.sender, (s.deposits ctx.sender).amount -
          (s.deposits ctx.sender).amount * 15 / 100)⟩) := by
  refine ⟨fun h => ?_, fun h h0 => ?_, fun h h0 htr h15 hle hW => ?_⟩
  · simp [emergency_withdraw, emergency_withdraw_raw, h]
  · simp [emergency_withdraw, emergency_withdraw_raw, h, h0]
  · have hpen : (s.deposits ctx.sender).amount * 15 / 100 ≤
        (s.deposits ctx.sender).amount := by omega
    have hAW : (s.deposits ctx.sender).amount < twoPow256 :=
      lt_of_le_of_lt hle hW
    simp only [emergency_withdraw, emergency_withdraw_raw, h, h0, htr,
      not_true, if_neg, if_false, ite_false, ite_true, Bool.true_eq_false,
      not_false_iff]
    rw [umul_exact h15, usub_exact hpen hAW, usub_exact hle hW]

/-- Emergency state holding a `2^255`-wei record: `amount * 15` wraps. -/
def c6State : TimeLockedVault :=
  { initialState with
      deposits := setAcct initialState.deposits 1 ⟨2 ^ 255, 0, 86400, 0, 0⟩
      total_locked := 2 ^ 255
      emergency_mode := true }

/-- C6 counterexample: at `amount = 2^255` the emergency withdrawal
succeeds and transfers a payout, but the payout is not
`amount - amount * 15 / 100`: the unchecked product `amount * 15`
wrapped modulo 2^256. -/
theorem c6_counterexample :
    (transferred (emergency_withdraw ⟨1, 0, 0, true⟩ c6State)).isSome = true ∧
    transferred (emergency_withdraw ⟨1, 0, 0, true⟩ c6State) ≠
      some (1, 2 ^ 255 - 2 ^ 255 * 15 / 100) :=
  ⟨rfl, by decide⟩

/-- Emergency state holding a 100-wei record for account 1. -/
def c6WitState : TimeLockedVault :=
  { initialState with
      deposits := setAcct initialState.deposits 1 ⟨100, 0, 86400, 0, 3⟩
      total_locked := 100
      emergency_mode := true }

/-- Witness for `c6_emergency_withdraw_spec`: the 100-wei record pays
out 85 and forfeits the 3 accumulated reward wei. -/
theorem c6_emergency_withdraw_spec_witness :
    emergency_withdraw ⟨1, 0, 0, true⟩ c6WitState = .ok ⟨{ c6WitState with
        deposits := setAcct c6WitState.deposits 1 emptyDeposit
        total_locked := c6WitState.total_locked - (c6WitState.deposits 1).amount },
      some (1, (c6WitState.deposits 1).amount -
        (c6WitState.deposits 1).amount * 15 / 100)⟩ :=
  (c6_emergency_withdraw_spec ⟨1, 0, 0, true⟩ c6WitState).2.2 rfl (by decide)
    rfl (by decide) (by decide) (by decide)

/-! ## C7: claim rewards -/

/-- Immediately after a settlement (`last_reward_claim = now`) the
pending reward is zero: zero elapsed time zeroes the base reward. -/
theorem pending_val_now_eq_claim (s : TimeLockedVault) (user now : Nat)
    (h : (s.deposits user).last_reward_claim = now) :
    pending_val s user now = 0 := by
  unfold pending_val calculate_pending_rewards
  by_cases h0 : (s.deposits user).amount = 0
  · simp [h0]
  · simp [h0, h, usub_self, umul_zero, umul_zero_left, Nat.zero_div]

/-- C7: `claim_rewards()` fails with `NoDeposit` when the caller's
`amount` is 0; when `accumulated_rewards + pending = 0` it succeeds as a
no-op (no transfer, no state change); otherwise (sum below 2^256, and
the transfer succeeding) it sets `last_reward_claim = now`, resets
`accumulated_rewards` to 0, transfers the total to the caller, and
leaves `amount`, `lock_time`, `unlock_time`, and `total_locked`
untouched; and any successful call followed immediately (same context)
by a second `claim_rewards` makes the second a no-op paying zero. -/
theorem c7_claim_rewards_spec (ctx : Ctx) (s : TimeLockedVault) :
    ((s.deposits ctx.sender).amount = 0 →
      claim_rewards ctx s = .error (.NoDeposit ctx.sender)) ∧
    ((s.deposits ctx.sender).amount ≠ 0 →
      (s.deposits ctx.sender).accumulated_rewards +
        pending_val s ctx.sender ctx.now = 0 →
      claim_rewards ctx s = .ok ⟨s, none⟩) ∧
    ((s.deposits ctx.sender).amount ≠ 0 →
      (s.deposits ctx.sender).accumulated_rewards +
        pending_val s ctx.sender ctx.now < twoPow256 →
      (s.deposits ctx.sender).accumulated_rewards +
        pending_val s ctx.sender ctx.now ≠ 0 →
      ctx.transfer_ok = true →
      claim_rewards ctx s = .ok ⟨{ s with
          deposits := setAcct s.deposits ctx.sender
            { s.deposits ctx.sender with
                last_reward_claim := ctx.now
                accumulated_rewards := 0 } },
        some (ctx.sender, (s.deposits ctx.sender).accumulated_rewards +
          pending_val s ctx.sender ctx.now)⟩) ∧
    (∀ o, claim_rewards ctx s = .ok o →
      claim_rewards ctx o.state = .ok ⟨o.state, none⟩) := by
  refine ⟨fun h0 => ?_, fun h0 ht => ?_, fun h0 hsum hne htr => ?_,
    fun o h => ?_⟩
  · simp [claim_rewards, claim_rewards_raw, h0]
  · have ht' : uadd (s.deposits ctx.sender).accumulated_rewards
        (pending_val s ctx.sender ctx.now) = 0 := by
      unfold uadd
      rw [ht, Nat.zero_mod]
    simp [claim_rewards, claim_rewards_raw, calc_ok, h0, ht']
  · have he : uadd (s.deposits ctx.sender).accumulated_rewards
        (pending_val s ctx.sender ctx.now) =
        (s.deposits ctx.sender).accumulated_rewards +
          pending_val s ctx.sender ctx.now :=
      uadd_exact hsum
    simp [claim_rewards, claim_rewards_raw, calc_ok, h0, he, hne, htr]
  · by_cases h0 : (s.deposits ctx.sender).amount = 0
    · simp [claim_rewards, claim_rewards_raw, h0] at h
    · simp only [claim_rewards, claim_rewards_raw, calc_ok, h0, if_neg,
        ite_false] at h
      by_cases ht : uadd (s.deposits ctx.sender).accumulated_rewards
          (pending_val s ctx.sender ctx.now) = 0
      · simp only [ht, ite_true, if_pos] at h
        cases h
        simp [claim_rewards, claim_rewards_raw, calc_ok, h0, ht]
      · rcases htr : ctx.transfer_ok with _ | _
        · simp [ht, htr] at h
        · simp only [ht, htr, ite_false, ite_true, if_neg, if_pos,
            Except.ok.injEq] at h
          subst h
          have hp : pending_val { s with
              deposits := setAcct s.deposits ctx.sender
                { s.deposits ctx.sender with
                    last_reward_claim := ctx.now
                    accumulated_rewards := 0 } } ctx.sender ctx.now = 0 :=
            pending_val_now_eq_claim _ _ _ (by simp [setAcct])
          simp [claim_rewards, claim_rewards_raw, calc_ok, setAcct, h0, hp, uadd]

/-- Witness for `c7_claim_rewards_spec`: account 1 claims its 3 wei of
banked rewards (zero rate, so no pending interest on top). -/
theorem c7_claim_rewards_spec_witness :
    claim_rewards ⟨1, 0, 50, true⟩ c6WitState = .ok ⟨{ c6WitState with
        deposits := setAcct c6WitState.deposits 1
          { c6WitState.deposits 1 with
              last_reward_claim := 50
              accumulated_rewards := 0 } },
      some (1, (c6WitState.deposits 1).accumulated_rewards +
        pending_val c6WitState 1 50)⟩ :=
  (c7_claim_rewards_spec ⟨1, 0, 50, true⟩ c6WitState).2.2.1 (by decide)
    (by decide) (by decide) rfl

/-! ## C8: emergency-mode activation and the one-way gate -/

/-- The error a call reports, if any. -/
def errOf (r : Except TimeLockedVaultError Outcome) :
    Option TimeLockedVaultError :=
  match r with
  | .error e => some e
  | .ok _ => none

/-- `deposit` never changes the owner or the emergency flag. -/
theorem deposit_owner_emerg (ctx : Ctx) (p : Nat) (s : TimeLockedVault) :
    (applyAction (.deposit p) ctx s).owner = s.owner ∧
    (applyAction (.deposit p) ctx s).emergency_mode = s.emergency_mode := by
  by_cases h1 : s.emergency_mode <;> by_cases h2 : ctx.value = 0 <;>
    by_cases h3 : p < 86400 ∨ p > 31536000 <;>
    simp [applyAction, stepResult, deposit, calc_ok, h1, h2, h3]

/-- `withdraw` never changes the owner or the emergency flag. -/
theorem withdraw_owner_emerg (ctx : Ctx) (s : TimeLockedVault) :
    (applyAction .withdraw ctx s).owner = s.owner ∧
    (applyAction .withdraw ctx s).emergency_mode = s.emergency_mode := by
  by_cases h0 : (s.deposits ctx.sender).amount = 0 <;>
    by_cases h1 : ctx.now < (s.deposits ctx.sender).unlock_time <;>
    rcases htr : ctx.transfer_ok with _ | _ <;>
    simp [applyAction, stepResult, withdraw, withdraw_raw, calc_ok, h0, h1, htr]

/-- `emergency_withdraw` never changes the owner or the emergency flag. -/
theorem emergency_withdraw_owner_emerg (ctx : Ctx) (s : TimeLockedVault) :
    (applyAction .emergencyWithdraw ctx s).owner = s.owner ∧
    (applyAction .emergencyWithdraw ctx s).emergency_mode = s.emergency_mode := by
  by_cases hm : s.emergency_mode <;>
    by_cases h0 : (s.deposits ctx.sender).amount = 0 <;>
    rcases htr : ctx.transfer_ok with _ | _ <;>
    simp [applyAction, stepResult, emergency_withdraw, emergency_withdraw_raw,
      hm, h0, htr]

/-- `claim_rewards` never changes the owner or the emergency flag. -/
theorem claim_rewards_owner_emerg (ctx : Ctx) (s : TimeLockedVault) :
    (applyAction .claimRewards ctx s).owner = s.owner ∧
    (applyAction .claimRewards ctx s).emergency_mode = s.emergency_mode := by
  by_cases h0 : (s.deposits ctx.sender).amount = 0 <;>
    by_cases ht : uadd (s.deposits ctx.sender).accumulated_rewards
      (pending_val s ctx.sender ctx.now) = 0 <;>
    rcases htr : ctx.transfer_ok with _ | _ <;>
    simp [applyAction, stepResult, claim_rewards, claim_rewards_raw, calc_ok,
      h0, ht, htr]

/-- `update_reward_rate` never changes the owner or the emergency flag. -/
theorem update_rate_owner_emerg (ctx : Ctx) (r : Nat) (s : TimeLockedVault) :
    (applyAction (.updateRate r) ctx s).owner = s.owner ∧
    (applyAction (.updateRate r) ctx s).emergency_mode = s.emergency_mode := by
  by_cases h : ctx.sender = s.owner <;>
    simp [applyAction, stepResult, update_reward_rate, h]

/-- In every reachable state, an active emergency flag implies a nonzero
owner (the flag can only be set by the owner, with a nonzero sender). -/
theorem reachable_emerg_owner {s : TimeLockedVault} (h : Reachable s) :
    s.emergency_mode = true → s.owner ≠ 0 := by
  induction h with
  | init => intro hm; simp [initialState] at hm
  | step a ctx hprev hsender ih =>
    rename_i s'
    cases a with
    | initVault b m =>
      by_cases h : s'.owner = 0
      · simp [applyAction, stepResult, init_vault, h, hsender]
      · simp [applyAction, stepResult, init_vault, h]
    | deposit p =>
      intro hm
      rw [(deposit_owner_emerg ctx p s').1]
      exact ih ((deposit_owner_emerg ctx p s').2 ▸ hm)
    | withdraw =>
      intro hm
      rw [(withdraw_owner_emerg ctx s').1]
      exact ih ((withdraw_owner_emerg ctx s').2 ▸ hm)
    | emergencyWithdraw =>
      intro hm
      rw [(emergency_withdraw_owner_emerg ctx s').1]
      exact ih ((emergency_withdraw_owner_emerg ctx s').2 ▸ hm)
    | claimRewards =>
      intro hm
      rw [(claim_rewards_owner_emerg ctx s').1]
      exact ih ((claim_rewards_owner_emerg ctx s').2 ▸ hm)
    | activateEmergency =>
      by_cases hm : s'.emergency_mode
      · simpa [applyAction, stepResult, activate_emergency_mode, hm] using ih
      · by_cases ho : s'.owner = ctx.sender
        · simpa [applyAction, stepResult, activate_emergency_mode, hm, ho]
            using hsender
        · simp [applyAction, stepResult, activate_emergency_mode, hm, ho, hsender]
    | updateRate r =>
      intro hm
      rw [(update_rate_owner_emerg ctx r s').1]
      exact ih ((update_rate_owner_emerg ctx r s').2 ▸ hm)

/-- C8 (amended): `activate_emergency_mode` fails with
`EmergencyModeActive` whenever the flag is already set (this check runs
before the owner check), fails with `Unauthorized` when the flag is
unset and the caller is not the owner, and otherwise sets the flag; and
once the flag is set in a reachable state, no public operation invoked
with a nonzero caller ever resets it (one-way gate). -/
theorem c8_activate_emergency_spec (ctx : Ctx) (s : TimeLockedVault) :
    (s.emergency_mode = true →
      activate_emergency_mode ctx s = .error (.EmergencyModeActive ctx.sender)) ∧
    (s.emergency_mode = false → ctx.sender ≠ s.owner →
      activate_emergency_mode ctx s = .error (.Unauthorized ctx.sender)) ∧
    (s.emergency_mode = false → ctx.sender = s.owner →
      activate_emergency_mode ctx s = .ok ⟨{ s with emergency_mode := true }, none⟩) ∧
    (∀ a : VaultAction, Reachable s → ctx.sender ≠ 0 → s.emergency_mode = true →
      (applyAction a ctx s).emergency_mode = true) := by
  refine ⟨fun hm => ?_, fun hm ho => ?_, fun hm ho => ?_, fun a hr hs hm => ?_⟩
  · simp [activate_emergency_mode, hm]
  · simp [activate_emergency_mode, hm, Ne.symm ho]
  · simp [activate_emergency_mode, hm, ho]
  · have how : s.owner ≠ 0 := reachable_emerg_owner hr hm
    cases a with
    | initVault b m => simpa [applyAction, stepResult, init_vault, how] using hm
    | deposit p => rw [(deposit_owner_emerg ctx p s).2]; exact hm
    | withdraw => rw [(withdraw_owner_emerg ctx s).2]; exact hm
    | emergencyWithdraw =>
      rw [(emergency_withdraw_owner_emerg ctx s).2]; exact hm
    | claimRewards => rw [(claim_rewards_owner_emerg ctx s).2]; exact hm
    | activateEmergency =>
      simp [applyAction, stepResult, activate_emergency_mode, hm]
    | updateRate r => rw [(update_rate_owner_emerg ctx r s).2]; exact hm

/-- Owner 1 has already activated emergency mode. -/
def c8State : TimeLockedVault :=
  { initialState with owner := 1, emergency_mode := true }

/-- C8 counterexample: a non-owner caller (account 2) with the flag
already set receives `EmergencyModeActive`, not `Unauthorized` — the
emergency check precedes the owner check, contradicting the claim that
a non-owner always gets `Unauthorized`. -/
theorem c8_counterexample :
    errOf (activate_emergency_mode ⟨2, 0, 0, true⟩ c8State) =
      some (.EmergencyModeActive 2) ∧
    (2 : Nat) ≠ c8State.owner ∧
    errOf (activate_emergency_mode ⟨2, 0, 0, true⟩ c8State) ≠
      some (.Unauthorized 2) :=
  ⟨rfl, by decide, by decide⟩

/-- The vault initialized with owner 1, emergency mode off. -/
def c8WitState : TimeLockedVault := { initialState with owner := 1 }

/-- Witness for `c8_activate_emergency_spec`: the owner activates the
flag on a fresh vault. -/
theorem c8_activate_emergency_spec_witness :
    activate_emergency_mode ⟨1, 0, 0, true⟩ c8WitState =
      .ok ⟨{ c8WitState with emergency_mode := true }, none⟩ :=
  (c8_activate_emergency_spec ⟨1, 0, 0, true⟩ c8WitState).2.2.1 rfl rfl

/-! ## C9: overflow behaviour of the arithmetic -/

/-- C9 (amended): no arithmetic step detects or rejects overflow — every
`U256` operation wraps modulo 2^256 (release-build operator semantics):
the reward computation always returns a value (never an error), that
value is the multiplication-before-division formula evaluated with each
product reduced modulo 2^256, and a successful `deposit` stores
`total_locked + v` and `now + lockPeriod` reduced modulo 2^256.
Multiplication does precede division at every step, as claimed. -/
theorem c9_arithmetic_wraps (s : TimeLockedVault) (user now : Nat)
    (ctx : Ctx) (p : Nat) :
    (calculate_pending_rewards s user now = .ok (pending_val s user now) ∧
      pending_val s user now < twoPow256) ∧
    ((s.deposits user).amount ≠ 0 →
      pending_val s user now =
        umul (umul (umul (s.deposits user).amount s.base_reward_rate)
            (usub now (s.deposits user).last_reward_claim) / 10 ^ 18)
          (uadd 10000 (umul s.time_bonus_multiplier
            (usub (s.deposits user).unlock_time
              (s.deposits user).lock_time) / 86400)) / 10000) ∧
    (∀ o, deposit ctx p s = .ok o →
      o.state.total_locked = (s.total_locked + ctx.value) % twoPow256 ∧
      (o.state.deposits ctx.sender).unlock_time =
        (ctx.now + p) % twoPow256) := by
  refine ⟨⟨calc_ok s user now, ?_⟩, fun h0 => ?_, fun o h => ?_⟩
  · unfold pending_val calculate_pending_rewards
    by_cases h0 : (s.deposits user).amount = 0
    · simp [h0, twoPow256_pos]
    · simp only [h0, if_neg, ite_false]
      exact lt_of_le_of_lt (Nat.div_le_self _ _) (Nat.mod_lt _ twoPow256_pos)
  · simp [pending_val, calculate_pending_rewards, h0]
  · by_cases h1 : s.emergency_mode
    · simp [deposit, h1] at h
    · by_cases h2 : ctx.value = 0
      · simp [deposit, h1, h2] at h
      · by_cases h3 : p < 86400 ∨ p > 31536000
        · simp [deposit, h1, h2, h3] at h
        · simp only [deposit, h1, h2, h3, calc_ok, Bool.false_eq_true,
            if_false, ite_false, Except.ok.injEq] at h
          subst h
          simp [setAcct, uadd]

/-- A ledger whose aggregate is one below 2^256. -/
def c9State : TimeLockedVault :=
  { initialState with total_locked := twoPow256 - 1 }

/-- C9 counterexample: a 2-wei deposit onto a `total_locked` of
`2^256 - 1` succeeds (no overflow rejection) and leaves
`total_locked = 1`: the sum wrapped modulo 2^256 instead of being
rejected. -/
theorem c9_counterexample :
    errOf (deposit ⟨1, 2, 0, true⟩ 86400 c9State) = none ∧
    (applyAction (.deposit 86400) ⟨1, 2, 0, true⟩ c9State).total_locked = 1 ∧
    twoPow256 ≤ twoPow256 - 1 + 2 :=
  ⟨rfl, by decide, by decide⟩

/-- Witness for `c9_arithmetic_wraps`: the flat wrapped formula at the
100-wei record of `c6WitState`. -/
theorem c9_arithmetic_wraps_witness :
    pending_val c6WitState 1 50 =
      umul (umul (umul (c6WitState.deposits 1).amount
          c6WitState.base_reward_rate)
        (usub 50 (c6WitState.deposits 1).last_reward_claim) / 10 ^ 18)
        (uadd 10000 (umul c6WitState.time_bonus_multiplier
          (usub (c6WitState.deposits 1).unlock_time
            (c6WitState.deposits 1).lock_time) / 86400)) / 10000 :=
  (c9_arithmetic_wraps c6WitState 1 50 ⟨1, 0, 0, true⟩ 86400).2.1 (by decide)

/-! ## C10: totality of the read-only queries -/

/-- `withdraw` touches no account other than the caller. -/
theorem withdraw_frame (ctx : Ctx) (s : TimeLockedVault) {x : Nat}
    (hx : x ≠ ctx.sender) :
    (applyAction .withdraw ctx s).deposits x = s.deposits x := by
  by_cases h0 : (s.deposits ctx.sender).amount = 0 <;>
    by_cases h1 : ctx.now < (s.deposits ctx.sender).unlock_time <;>
    rcases htr : ctx.transfer_ok with _ | _ <;>
    simp [applyAction, stepResult, withdraw, withdraw_raw, calc_ok, h0, h1,
      htr, setAcct, hx]

/-- `emergency_withdraw` touches no account other than the caller. -/
theorem emergency_withdraw_frame (ctx : Ctx) (s : TimeLockedVault) {x : Nat}
    (hx : x ≠ ctx.sender) :
    (applyAction .emergencyWithdraw ctx s).deposits x = s.deposits x := by
  by_cases hm : s.emergency_mode <;>
    by_cases h0 : (s.deposits ctx.sender).amount = 0 <;>
    rcases htr : ctx.transfer_ok with _ | _ <;>
    simp [applyAction, stepResult, emergency_withdraw, emergency_withdraw_raw,
      hm, h0, htr, setAcct, hx]

/-- `claim_rewards` touches no account other than the caller. -/
theorem claim_rewards_frame (ctx : Ctx) (s : TimeLockedVault) {x : Nat}
    (hx : x ≠ ctx.sender) :
    (applyAction .claimRewards ctx s).deposits x = s.deposits x := by
  by_cases h0 : (s.deposits ctx.sender).amount = 0 <;>
    by_cases ht : uadd (s.deposits ctx.sender).accumulated_rewards
      (pending_val s ctx.sender ctx.now) = 0 <;>
    rcases htr : ctx.transfer_ok with _ | _ <;>
    simp [applyAction, stepResult, claim_rewards, claim_rewards_raw, calc_ok,
      h0, ht, htr, setAcct, hx]

/-- `activate_emergency_mode` never touches the deposits mapping. -/
theorem activate_deposits (ctx : Ctx) (s : TimeLockedVault) :
    (applyAction .activateEmergency ctx s).deposits = s.deposits := by
  by_cases hm : s.emergency_mode <;>
    by_cases ho : s.owner ≠ ctx.sender <;>
    simp [applyAction, stepResult, activate_emergency_mode, hm, ho]

/-- `update_reward_rate` never touches the deposits mapping. -/
theorem update_rate_deposits (ctx : Ctx) (r : Nat) (s : TimeLockedVault) :
    (applyAction (.updateRate r) ctx s).deposits = s.deposits := by
  by_cases h : ctx.sender = s.owner <;>
    simp [applyAction, stepResult, update_reward_rate, h]

/-- No public call changes the record of an account other than the
caller. -/
theorem step_frame (a : VaultAction) (ctx : Ctx) (s : TimeLockedVault)
    {x : Nat} (hx : x ≠ ctx.sender) :
    (applyAction a ctx s).deposits x = s.deposits x := by
  cases a with
  | initVault b m => rw [init_vault_deposits]
  | deposit p => exact deposit_frame ctx p s hx
  | withdraw => exact withdraw_frame ctx s hx
  | emergencyWithdraw => exact emergency_withdraw_frame ctx s hx
  | claimRewards => exact claim_rewards_frame ctx s hx
  | activateEmergency => rw [activate_deposits]
  | updateRate r => rw [update_rate_deposits]

/-- After any public call, the caller's record is unchanged, or the
all-zero record, or holds a nonzero amount. -/
theorem step_sender_record (a : VaultAction) (ctx : Ctx) (s : TimeLockedVault) :
    (applyAction a ctx s).deposits ctx.sender = s.deposits ctx.sender ∨
    (applyAction a ctx s).deposits ctx.sender = emptyDeposit ∨
    ((applyAction a ctx s).deposits ctx.sender).amount ≠ 0 := by
  cases a with
  | initVault b m => left; rw [init_vault_deposits]
  | deposit p =>
    by_cases h1 : s.emergency_mode
    · left; simp [applyAction, stepResult, deposit, h1]
    · by_cases h2 : ctx.value = 0
      · left; simp [applyAction, stepResult, deposit, h1, h2]
      · by_cases h3 : p < 86400 ∨ p > 31536000
        · left; simp [applyAction, stepResult, deposit, h1, h2, h3]
        · right; right
          simp [applyAction, stepResult, deposit, calc_ok, h1, h2, h3, setAcct]
  | withdraw =>
    by_cases h0 : (s.deposits ctx.sender).amount = 0
    · left; simp [applyAction, stepResult, withdraw, withdraw_raw, h0]
    · by_cases h1 : ctx.now < (s.deposits ctx.sender).unlock_time
      · left
        simp [applyAction, stepResult, withdraw, withdraw_raw, h0, h1]
      · rcases htr : ctx.transfer_ok with _ | _
        · left
          simp [applyAction, stepResult, withdraw, withdraw_raw, calc_ok,
            h0, h1, htr]
        · right; left
          simp [applyAction, stepResult, withdraw, withdraw_raw, calc_ok,
            h0, h1, htr, setAcct]
  | emergencyWithdraw =>
    by_cases hm : s.emergency_mode
    · by_cases h0 : (s.deposits ctx.sender).amount = 0
      · left
        simp [applyAction, stepResult, emergency_withdraw,
          emergency_withdraw_raw, hm, h0]
      · rcases htr : ctx.transfer_ok with _ | _
        · left
          simp [applyAction, stepResult, emergency_withdraw,
            emergency_withdraw_raw, hm, h0, htr]
        · right; left
          simp [applyAction, stepResult, emergency_withdraw,
            emergency_withdraw_raw, hm, h0, htr, setAcct]
    · left
      simp [applyAction, stepResult, emergency_withdraw,
        emergency_withdraw_raw, hm]
  | claimRewards =>
    by_cases h0 : (s.deposits ctx.sender).amount = 0
    · left; simp [applyAction, stepResult, claim_rewards, claim_rewards_raw, h0]
    · by_cases ht : uadd (s.deposits ctx.sender).accumulated_rewards
        (pending_val s ctx.sender ctx.now) = 0
      · left
        simp [applyAction, stepResult, claim_rewards, claim_rewards_raw,
          calc_ok, h0, ht]
      · rcases htr : ctx.transfer_ok with _ | _
        · left
          simp [applyAction, stepResult, claim_rewards, claim_rewards_raw,
            calc_ok, h0, ht, htr]
        · right; right
          simp [applyAction, stepResult, claim_rewards, claim_rewards_raw,
            calc_ok, h0, ht, htr, setAcct]
  | activateEmergency => left; rw [activate_deposits]
  | updateRate r => left; rw [update_rate_deposits]

/-- In every reachable state a zero-amount record is the all-zero
canonical record. -/
theorem reachable_empty_canonical {s : TimeLockedVault} (h : Reachable s) :
    ∀ a, (s.deposits a).amount = 0 → s.deposits a = emptyDeposit := by
  induction h with
  | init => intro a _; rfl
  | step act ctx hprev hsender ih =>
    rename_i s'
    intro a ha
    by_cases hx : a = ctx.sender
    · subst hx
      rcases step_sender_record act ctx s' with h | h | h
      · rw [h] at ha ⊢
        exact ih _ ha
      · exact h
      · exact absurd ha h
    · rw [step_frame act ctx s' hx] at ha ⊢
      exact ih _ ha

/-- C10: read-only queries are total: `calculate_pending_rewards`
returns `Ok` for every state, account, and timestamp no earlier than the
record's `last_reward_claim` (its declared error path is never taken),
so `get_deposit_info`'s `unwrap_or(0)` fallback is unreachable and both
queries always return a value without mutating state (they are pure
functions of the state); and on a reachable state an account with
`amount = 0` is reported with a reward figure of 0. -/
theorem c10_queries_total (s : TimeLockedVault) (user now : Nat)
    (hr : Reachable s)
    (hnow : (s.deposits user).last_reward_claim ≤ now) :
    (∃ v, calculate_pending_rewards s user now = .ok v ∧
      get_deposit_info s user now =
        ((s.deposits user).amount, (s.deposits user).unlock_time,
          uadd (s.deposits user).accumulated_rewards v,
          (s.deposits user).lock_time)) ∧
    ((s.deposits user).amount = 0 →
      (get_deposit_info s user now).2.2.1 = 0) ∧
    get_total_locked s = s.total_locked := by
  refine ⟨⟨pending_val s user now, calc_ok s user now, ?_⟩, fun h0 => ?_, rfl⟩
  · simp [get_deposit_info, calc_ok]
  · have he := reachable_empty_canonical hr user h0
    simp [get_deposit_info, calc_ok, pending_val, calculate_pending_rewards,
      he, uadd, emptyDeposit]

/-- Witness for `c10_queries_total`: the empty ledger reports zero
rewards and zero total. -/
theorem c10_queries_total_witness :
    (get_deposit_info initialState 5 0).2.2.1 = 0 ∧
    get_total_locked initialState = 0 :=
  ⟨(c10_queries_total initialState 5 0 Reachable.init (by decide)).2.1
      (by decide),
    (c10_queries_total initialState 5 0 Reachable.init (by decide)).2.2⟩
